import Mathlib

/-!
# Verification of the ai3-release-manager asset-acquisition pipeline

A shallow embedding of the core of the `ai3-release-manager` repository:
release discovery and tag sorting (`src/core/releaseService.ts`), the
cache/state store (`src/core/cacheManager.ts`), the per-asset downloader with
its lock discipline (`AssetDownloader.downloadAsset`), and the orchestrator
(`src/core/downloader.ts`).

Effects (filesystem reads, HTTP transfers, clocks, JS `Date`/locale parsing)
are modelled as explicit inputs: each embedded operation takes the outcome of
its environment interactions as data and returns its result together with a
trace of the observable actions it performed.  Machine numbers are `Int`/`Nat`
(the TS code does no overflowing arithmetic on them).
-/

namespace AI3

/-- Network identifiers (`src/models/network.ts`, `NetworkType`). -/
inductive NetworkType where
  | taurus
  | mainnet
  | testnet
  | devnet
deriving DecidableEq, Repr

/-- Release asset reference as mapped by `fetchTagsFromApi`
(`{ name, size, downloadUrl }`). -/
structure ReleaseAsset where
  name : String
  size : Nat
  downloadUrl : String
deriving DecidableEq, Repr

/-- `ReleaseTag` (`src/models/network.ts`): tag string, derived network, the
date suffix extracted from the tag, and for the API path the structured
publish timestamp and asset list. -/
structure ReleaseTag where
  tag : String
  network : NetworkType
  date : String
  publishedAt : Option String := none
  assets : Option (List ReleaseAsset) := none
deriving DecidableEq, Repr

/-- `AssetMapping` (`src/models/asset.ts`).  TS fields are strings; the code
treats an empty string the same as a missing field (falsiness), so a missing
`source`/`output` is modelled as `""`. -/
structure AssetMapping where
  source : String
  output : String
deriving DecidableEq, Repr

/-- `AssetMetadata` (`src/models/asset.ts`): `{ downloadTime, hash }`. -/
structure AssetMetadata where
  downloadTime : String
  hash : String
deriving DecidableEq, Repr

/-! ## Release discovery (`src/core/releaseService.ts`) -/

/-- One entry of the GitHub API releases payload, restricted to the fields
`fetchTagsFromApi` reads (`tag_name`, `published_at`, mapped `assets`). -/
structure ApiRelease where
  tag_name : String
  published_at : String
  assets : List ReleaseAsset
deriving DecidableEq, Repr

/-- JS `tag.startsWith(prefix)`, stated over the strings' character lists so
that it evaluates by kernel reduction. -/
def strStartsWith (s pre : String) : Bool :=
  s.data.take pre.data.length == pre.data

/-- Removing the first `n` characters of a string, stated over the character
list so that it evaluates by kernel reduction. -/
def strDrop (s : String) (n : Nat) : String :=
  String.mk (s.data.drop n)

/-- First matching entry of the ordered `prefix → network` table
(`for (const [prefix, network] of Object.entries(this.networkPrefixes))`
with `break` on the first `tag.startsWith(prefix)`). -/
def classifyTag (prefixes : List (String × NetworkType)) (tag : String) :
    Option (String × NetworkType) :=
  prefixes.find? (fun p => strStartsWith tag p.1)

/-- JS regex metacharacters: a character that is not one of these matches
itself literally in a pattern. -/
def isRegexMeta (c : Char) : Bool :=
  c = '\\' || c = '^' || c = '$' || c = '.' || c = '|' || c = '?' || c = '*' ||
  c = '+' || c = '(' || c = ')' || c = '[' || c = ']' || c = '{' || c = '}'

/-- A character the constructed regex treats as a literal. -/
def regexLiteralChar (c : Char) : Bool :=
  !isRegexMeta c

/-- `prefix.replace('-', '\\-')`: JS `String#replace` with a string pattern
replaces only the first occurrence, so only the first `-` is escaped. -/
def escapeFirstDashChars : List Char → List Char
  | [] => []
  | c :: rest =>
      if c = '-' then '\\' :: '-' :: rest
      else c :: escapeFirstDashChars rest

/-- One atom of the anchored patterns `new RegExp('^' + escapedPrefix)` can
produce within the modelled subclass: a literal character, or a
one-or-more-repeated character (`c+`). -/
inductive RTok where
  | lit (c : Char)
  | plus (c : Char)
deriving DecidableEq, Repr

/-- First tokenizer pass: resolve escapes.  The boolean state records that
the previous character was a backslash.  The only escape the code's pattern
construction introduces is `\-`, which resolves to a literal `-`; any other
escape, and any metacharacter other than the `+` quantifier (classes, groups,
alternation — `new RegExp` behaviors outside the modelled subclass), yields
`none`; no theorem in this file quantifies over such patterns. -/
def unescapeChars : Bool → List Char → Option (List Char)
  | false, [] => some []
  | false, c :: rest =>
      if c = '\\' then unescapeChars true rest
      else if isRegexMeta c = true ∧ c ≠ '+' then none
      else (unescapeChars false rest).map (fun l => c :: l)
  | true, [] => none
  | true, c :: rest =>
      if c = '-' then (unescapeChars false rest).map (fun l => '-' :: l)
      else none

/-- Second tokenizer pass: attach `+` quantifiers to the preceding atom.  The
`Option Char` state is the pending atom; a `+` with no pending atom is a
`new RegExp` syntax error, outside the modelled subclass. -/
def quantifyTokens : Option Char → List Char → Option (List RTok)
  | none, [] => some []
  | some a, [] => some [RTok.lit a]
  | none, c :: rest =>
      if c = '+' then none
      else quantifyTokens (some c) rest
  | some a, c :: rest =>
      if c = '+' then (quantifyTokens none rest).map (fun ts => RTok.plus a :: ts)
      else (quantifyTokens (some c) rest).map (fun ts => RTok.lit a :: ts)

/-- Tokenize an escaped-prefix pattern (`none` = outside the modelled
subclass). -/
def parseRegexTokens (cs : List Char) : Option (List RTok) :=
  (unescapeChars false cs).bind (quantifyTokens none)

/-- Match a token sequence against the start of a character list, returning
the number of characters consumed.  `c+` is greedy with backtracking, exactly
the JS regex behavior: try to extend the repetition first, fall back to the
continuation. -/
def matchTokens : List RTok → List Char → Option Nat
  | [], _ => some 0
  | .lit _ :: _, [] => none
  | .lit c :: ts, x :: xs =>
      if x = c then (matchTokens ts xs).map (fun n => n + 1) else none
  | .plus _ :: _, [] => none
  | .plus c :: ts, x :: xs =>
      if x = c then
        match matchTokens (.plus c :: ts) xs with
        | some n => some (n + 1)
        | none => (matchTokens ts xs).map (fun n => n + 1)
      else none

/-- Embeds `tag.replace(new RegExp('^' + prefix.replace('-', '\\-')), '')`:
tokenize the escaped prefix and remove the anchored match from the tag; when
the anchored pattern does not match, `replace` returns the tag unchanged.
Note the removed portion is the match, which for a non-literal pattern need
not be the prefix itself (and for `a+-` on `a+-x` there is no match at all
even though `startsWith` succeeded).  Patterns outside the tokenizer's
subclass are mapped to the unchanged tag; no theorem quantifies over them. -/
def stripTagPrefix (pre tag : String) : String :=
  match parseRegexTokens (escapeFirstDashChars pre.data) with
  | some ts =>
      match matchTokens ts tag.data with
      | some n => String.mk (tag.data.drop n)
      | none => tag
  | none => tag

/-- HTML-scraping discovery path of `getAllReleaseTags`: for each tag string
extracted from a release link (skipped when falsy, i.e. empty), the first
matching prefix determines the network and the date is the tag with that
prefix stripped; non-matching tags are dropped. -/
def htmlScrapeTags (prefixes : List (String × NetworkType)) (tags : List String) :
    List ReleaseTag :=
  tags.filterMap (fun tag =>
    if tag = "" then none
    else
      match classifyTag prefixes tag with
      | some (pre, network) =>
          some { tag := tag, network := network, date := stripTagPrefix pre tag }
      | none => none)

/-- API discovery path (`fetchTagsFromApi`): same prefix rule, additionally
carrying `publishedAt` and the mapped asset list. -/
def apiReleaseTags (prefixes : List (String × NetworkType)) (releases : List ApiRelease) :
    List ReleaseTag :=
  releases.filterMap (fun r =>
    match classifyTag prefixes r.tag_name with
    | some (pre, network) =>
        some { tag := r.tag_name, network := network,
               date := stripTagPrefix pre r.tag_name,
               publishedAt := some r.published_at,
               assets := some r.assets }
    | none => none)

/-- `tag.network === networkType` filter predicate of `getLatestReleaseTag`. -/
def networkMatches (networkType : NetworkType) (t : ReleaseTag) : Bool :=
  decide (t.network = networkType)

/-- Sort key of the `publishedAt` comparator:
`a.publishedAt ? new Date(a.publishedAt).getTime() : 0`.  `parsePub` is the
JS `Date`-parse oracle (millisecond timestamp of a timestamp string). -/
def pubKey (parsePub : String → Int) (t : ReleaseTag) : Int :=
  match t.publishedAt with
  | some s => parsePub s
  | none => 0

/-- `publishedAt` comparator `(a, b) => dateB - dateA` read as the sort order
"`a` may come before `b`", i.e. comparator value `≤ 0`. -/
def lePub (parsePub : String → Int) (a b : ReleaseTag) : Prop :=
  pubKey parsePub b - pubKey parsePub a ≤ 0

instance (parsePub : String → Int) : DecidableRel (lePub parsePub) := fun a b => by
  unfold lePub; infer_instance

instance (parsePub : String → Int) : IsTotal ReleaseTag (lePub parsePub) where
  total a b := by unfold lePub; omega

instance (parsePub : String → Int) : IsTrans ReleaseTag (lePub parsePub) where
  trans a b c := by unfold lePub; omega

/-- Fallback comparator on extracted tag dates: `new Date(a.date)` /
`new Date(b.date)`, returning `dateB - dateA` when both parse as valid dates
and otherwise `b.date.localeCompare(a.date, undefined, {numeric: true, ...})`.
`parseDate` is the JS `Date`-parse oracle (`none` models an invalid date) and
`ncmp` the locale-aware numeric string comparison oracle. -/
def cmpDate (parseDate : String → Option Int) (ncmp : String → String → Int)
    (a b : ReleaseTag) : Int :=
  match parseDate a.date, parseDate b.date with
  | some ta, some tb => tb - ta
  | _, _ => ncmp b.date a.date

/-- Fallback comparator read as "`a` may come before `b`" (value `≤ 0`). -/
def leDate (parseDate : String → Option Int) (ncmp : String → String → Int)
    (a b : ReleaseTag) : Prop :=
  cmpDate parseDate ncmp a b ≤ 0

instance (parseDate : String → Option Int) (ncmp : String → String → Int) :
    DecidableRel (leDate parseDate ncmp) := fun a b => by
  unfold leDate; infer_instance

/-- Extracted-date sort key used to state maximality in the fallback case. -/
def dateVal (parseDate : String → Option Int) (t : ReleaseTag) : Int :=
  (parseDate t.date).getD 0

/-- `getLatestReleaseTag` (`src/core/releaseService.ts`), given the discovered
tag list (the result of `getAllReleaseTags`): filter to the requested network,
fail with `NetworkNotFoundError` when empty, sort descending by `publishedAt`
when any candidate carries one and otherwise by the extracted-date comparator
(JS `Array#sort` is a stable comparison sort, modelled by the stable
`List.insertionSort`), and return the first entry. -/
def getLatestReleaseTag (parsePub : String → Int) (parseDate : String → Option Int)
    (ncmp : String → String → Int) (releaseTags : List ReleaseTag)
    (networkType : NetworkType) : Except String ReleaseTag :=
  let filtered := releaseTags.filter (networkMatches networkType)
  if filtered.isEmpty then
    .error "NetworkNotFoundError"
  else
    let hasPub := filtered.any (fun t => t.publishedAt.isSome)
    let sorted :=
      if hasPub then List.insertionSort (lePub parsePub) filtered
      else List.insertionSort (leDate parseDate ncmp) filtered
    match sorted with
    | [] => .error "unreachable: a permutation of a non-empty list is non-empty"
    | t :: _ => .ok t

/-! ## Cache/state store (`src/core/cacheManager.ts`)

The on-disk JSON state is modelled by `DownloadState` with `version` and
`assetDetails` optional (they are absent in legacy files).  JS object maps
(`assetDetails`) are modelled as association lists in key-insertion order,
looked up by first match.  The class's in-memory `currentState` is an
`Option DownloadState`.

JS aliasing note: `saveState` receives `this.currentState` itself on every
internal call and mutates `version`/`lastUpdated` in place before attempting
the disk write, so the in-memory state is stamped whether or not the write
succeeds; `saveStateStamp` models that in-memory effect. -/

/-- `DownloadState` (`src/models/download.ts`). -/
structure DownloadState where
  version : Option Int := none
  latestTag : String
  downloadedAssets : List String
  assetDetails : Option (List (String × AssetMetadata)) := none
  lastUpdated : String
deriving DecidableEq, Repr

/-- `CacheManager`'s `VERSION = 2`. -/
def STATE_VERSION : Int := 2

/-- Lookup in a JS object map modelled as an association list. -/
def lookupDetail (details : List (String × AssetMetadata)) (k : String) :
    Option AssetMetadata :=
  (details.find? (fun p => p.1 == k)).map (·.2)

/-- JS-object key assignment `details[k] = v`: overwrite in place if the key
exists, otherwise append (JS objects keep key-insertion order). -/
def assocSet (details : List (String × AssetMetadata)) (k : String)
    (v : AssetMetadata) : List (String × AssetMetadata) :=
  if details.any (fun p => p.1 == k) then
    details.map (fun p => if p.1 == k then (k, v) else p)
  else details ++ [(k, v)]

/-- In-memory effect of `saveState`: `state.version = this.VERSION;
state.lastUpdated = new Date().toISOString()` (applied to the aliased
`currentState` before the write is attempted). -/
def saveStateStamp (now : String) (s : DownloadState) : DownloadState :=
  { s with version := some STATE_VERSION, lastUpdated := now }

/-- In-memory state after a call to the public `saveState(state)` with a
state object distinct from `currentState`: on a successful write the cached
copy is replaced by the stamped state, on failure it is left unchanged. -/
def saveStatePublic (now : String) (writeOk : Bool) (current : Option DownloadState)
    (s : DownloadState) : Option DownloadState :=
  if writeOk then some (saveStateStamp now s) else current

/-- `!this.currentState.version || this.currentState.version < this.VERSION`
(JS falsiness: absent or `0` both count as missing, and both are `< 2`). -/
def needsMigration (s : DownloadState) : Bool :=
  match s.version with
  | none => true
  | some v => decide (v < STATE_VERSION)

/-- `migrateState` body (without its trailing `saveState` call): add
`version = 1` when falsy; for version 1, synthesize `assetDetails` from the
flat `downloadedAssets` list (entries `{downloadTime: lastUpdated, hash: ''}`)
when `assetDetails` is absent, and bump the version to 2. -/
def migrateState (s : DownloadState) : DownloadState :=
  let s :=
    if s.version = none ∨ s.version = some 0 then { s with version := some 1 } else s
  if s.version = some 1 then
    let s :=
      if s.assetDetails.isNone then
        let details := s.downloadedAssets.map (fun a => (a, AssetMetadata.mk s.lastUpdated ""))
        { s with assetDetails := some details }
      else s
    { s with version := some STATE_VERSION }
  else s

/-- Fresh empty state initialized by `loadState` when neither the primary nor
the backup file yields a usable state. -/
def freshState (now : String) : DownloadState :=
  { version := some STATE_VERSION, latestTag := "", downloadedAssets := [],
    assetDetails := some [], lastUpdated := now }

/-- `loadState`: read the primary file (`none` models absent/unparseable),
migrate an old-version state in place (followed by `saveState`), otherwise
attempt backup recovery (followed by `saveState`), otherwise initialize a
fresh empty state. -/
def loadState (primary : Option DownloadState) (backupExists : Bool)
    (backup : Option DownloadState) (now : String) : Option DownloadState :=
  let cur : Option DownloadState :=
    match primary with
    | some s => some (if needsMigration s then saveStateStamp now (migrateState s) else s)
    | none => none
  let cur : Option DownloadState :=
    match cur with
    | some s => some s
    | none =>
        if backupExists then
          match backup with
          | some b => some (saveStateStamp now b)
          | none => none
        else none
  match cur with
  | none => some (freshState now)
  | some s => some s

/-- `isTagCached(tag)`: `false` on a null state, otherwise
`currentState.latestTag === tag`. -/
def isTagCached (current : Option DownloadState) (tag : String) : Bool :=
  match current with
  | none => false
  | some s => s.latestTag == tag

/-- `addDownloadedAsset(tag, asset, hash)`: create the state if absent, set
`latestTag`, append the asset name if new, ensure `assetDetails` exists, stamp
fresh metadata (`hash || ''`) for the asset, and save (which stamps the
aliased in-memory state). -/
def addDownloadedAsset (current : Option DownloadState) (now : String)
    (tag asset : String) (hash : Option String) : DownloadState :=
  let s : DownloadState :=
    match current with
    | none =>
        { version := some STATE_VERSION, latestTag := tag, downloadedAssets := [],
          assetDetails := some [], lastUpdated := now }
    | some s => s
  let s := { s with latestTag := tag }
  let s :=
    if s.downloadedAssets.contains asset then s
    else { s with downloadedAssets := s.downloadedAssets ++ [asset] }
  let s :=
    if s.assetDetails.isNone then { s with assetDetails := some [] } else s
  let details := assocSet (s.assetDetails.getD []) asset (AssetMetadata.mk now (hash.getD ""))
  let s := { s with assetDetails := some details }
  saveStateStamp now s

/-! ## Per-asset downloader (`AssetDownloader.downloadAsset`)

The filesystem and transport are an explicit environment `FsEnv`; the function
returns its `DownloadResult` together with a `Trace` of the observable actions
(stale-lock removal, lock creation, network attempts, file writes, lock
release).  The retry loop is recursion on the number of remaining iterations
of `while (retryCount <= this.maxRetries)`; `maxRetries` is a TS `number` and
is kept as an `Int`. -/

/-- Errors carried in a failed `DownloadResult`: `AssetDownloadError(asset,
message)` or a plain `new Error(message)`. -/
inductive DlError where
  | assetError (asset : String) (msg : String)
  | genericError (msg : String)
deriving DecidableEq, Repr

/-- `DownloadResult` (`src/models/download.ts`), with the error represented by
its constructor and message. -/
structure DownloadResult where
  success : Bool
  filePath : Option String := none
  hash : Option String := none
  error : Option DlError := none
deriving DecidableEq, Repr

/-- Outcome of one `GET`-and-stream attempt of the retry loop: a completed
non-empty transfer with its computed SHA-256 hex digest, or any failure of
steps 6–9 (HTTP error, network error, empty file) with its classified
message. -/
inductive AttemptOutcome where
  | ok (hash : String)
  | err (msg : String)
deriving DecidableEq, Repr

/-- Environment of one `downloadAsset` call.  `lockFile = none`: no lock file
exists; `lockFile = some p`: a lock file exists and its content parses
(`parseInt`) to `p` (`none` = `NaN`).  `metadata` is the parsed `.meta`
sidecar for the output path, `attempts k` the outcome of the `k`-th download
attempt. -/
structure FsEnv where
  lockFile : Option (Option Int)
  now : Int
  createLockOk : Bool
  outputExists : Bool
  metadata : Option AssetMetadata
  attempts : Nat → AttemptOutcome

/-- Observable actions performed by a `downloadAsset` call. -/
structure Trace where
  staleLockRemoved : Bool := false
  createLockCalled : Bool := false
  lockCreated : Bool := false
  networkAttempts : Nat := 0
  fileWrites : Nat := 0
  lockReleased : Bool := false
deriving DecidableEq, Repr

/-- `defaults.lockFileExpirationMs` (1 hour). -/
def lockFileExpirationMs : Int := 60 * 60 * 1000

/-- Cached-file short-circuit of step 5: taken only when `forceUpdate` is
off, the output file exists, and its sidecar metadata carries a truthy
(non-empty) hash (`metadata && metadata.hash`). -/
def cachedHit (forceUpdate : Bool) (env : FsEnv) : Option String :=
  if !forceUpdate && env.outputExists then
    match env.metadata with
    | some m => if m.hash = "" then none else some m.hash
    | none => none
  else none

/-- Number of iterations `while (retryCount <= maxRetries)` runs when every
attempt fails: none when `maxRetries < 0`, otherwise `maxRetries + 1`. -/
def loopIterations (maxRetries : Int) : Nat :=
  if maxRetries < 0 then 0 else maxRetries.toNat + 1

/-- The retry loop, by recursion on the remaining allowed iterations.  Each
iteration first re-checks the cached-file short-circuit, then attempts the
download; a failed attempt retries while iterations remain and otherwise
returns the exhausted-retries `AssetDownloadError`.  The lock is released on
the cached, success, and exhausted exits; the fall-through when no iteration
runs returns the `'Unknown error during download'` failure without touching
the lock (the `finally` block only cleans up stream state). -/
def downloadLoop (mapping : AssetMapping) (forceUpdate : Bool) (env : FsEnv)
    (outputPath : String) (i : Nat) : Nat → Trace → DownloadResult × Trace
  | 0, tr =>
      ({ success := false, error := some (.genericError "Unknown error during download") }, tr)
  | r + 1, tr =>
      match cachedHit forceUpdate env with
      | some h =>
          ({ success := true, filePath := some outputPath, hash := some h },
           { tr with lockReleased := true })
      | none =>
          match env.attempts i with
          | .ok h =>
              ({ success := true, filePath := some outputPath, hash := some h },
               { tr with networkAttempts := tr.networkAttempts + 1,
                         fileWrites := tr.fileWrites + 1, lockReleased := true })
          | .err m =>
              if r > 0 then
                downloadLoop mapping forceUpdate env outputPath (i + 1) r
                  { tr with networkAttempts := tr.networkAttempts + 1 }
              else
                ({ success := false, error := some (.assetError mapping.source m) },
                 { tr with networkAttempts := tr.networkAttempts + 1,
                           lockReleased := true })

/-- Continuation of `downloadAsset` after the existing-lock inspection:
`createLock` (exclusive create; failure returns the
`'Could not obtain lock file'` result) followed by the retry loop. -/
def downloadAssetLocked (maxRetries : Int) (forceUpdate : Bool)
    (mapping : AssetMapping) (outputPath : String) (env : FsEnv) (tr : Trace) :
    DownloadResult × Trace :=
  let tr := { tr with createLockCalled := true }
  if env.createLockOk then
    downloadLoop mapping forceUpdate env outputPath 0 (loopIterations maxRetries)
      { tr with lockCreated := true }
  else
    ({ success := false, error := some (.genericError "Could not obtain lock file") }, tr)

/-- `!isNaN(lockTime) && Date.now() - lockTime < defaults.lockFileExpirationMs`:
the existing lock file is live when its content parses to a timestamp younger
than the expiration threshold. -/
def lockIsLive (now : Int) : Option (Option Int) → Bool
  | some (some t) => decide (now - t < lockFileExpirationMs)
  | _ => false

/-- `AssetDownloader.downloadAsset`: mapping validation, existing-lock
inspection (a live lock — parseable timestamp younger than the expiration
threshold — is an immediate failure; a stale or unparseable one is removed),
lock acquisition, and the retry loop. -/
def downloadAsset (maxRetries : Int) (forceUpdate : Bool) (mapping : AssetMapping)
    (outputDir : String) (env : FsEnv) : DownloadResult × Trace :=
  if mapping.source = "" ∨ mapping.output = "" then
    ({ success := false, error := some (.assetError "unknown" "Invalid asset mapping") }, {})
  else
    let outputPath := outputDir ++ "/" ++ mapping.output
    if env.lockFile.isSome then
      if lockIsLive env.now env.lockFile then
        ({ success := false,
           error := some (.genericError "File is locked by another process") }, {})
      else
        downloadAssetLocked maxRetries forceUpdate mapping outputPath env
          { staleLockRemoved := true }
    else
      downloadAssetLocked maxRetries forceUpdate mapping outputPath env {}

/-! ## Orchestrator (`GithubReleaseDownloader.download`, `src/core/downloader.ts`)

The whole body of `download()` sits in one `try`; the `catch` converts any
thrown error into a failed summary.  The body is embedded as an
`Except String DownloadSummary` computation over an environment carrying the
outcomes of the throwing collaborators (`formatRepo`, `getLatestReleaseTag`,
`downloadAssets`) and of the filesystem size probes; `download` is the total
wrapper.  The per-success cache updates it performs are the `CacheManager`
operations modelled above and do not feed back into the summary. -/

/-- One entry of `DownloadSummary.downloadedAssets`. -/
structure SummaryAsset where
  name : String
  outputPath : String
  success : Bool
  hash : Option String := none
  error : Option String := none
  fileSize : Option Nat := none
deriving DecidableEq, Repr

/-- `DownloadSummary` (`src/models/download.ts`); `action` is one of the TS
string literals `'downloaded' | 'skipped' | 'none'`. -/
structure DownloadSummary where
  success : Bool
  releaseTag : String
  downloadedAssets : List SummaryAsset
  errors : Option (List String) := none
  action : String
deriving DecidableEq, Repr

/-- Message text of a `DownloadResult` error (`result.error?.message`). -/
def DlError.message : DlError → String
  | .assetError _ m => m
  | .genericError m => m

/-- Environment of one `download()` call: outcomes of the throwing
collaborators and probes. -/
structure OrchEnv where
  formatRepoRes : Except String String
  resolveRes : Except String ReleaseTag
  cacheState : Option DownloadState
  fileSize : String → Option Nat
  downloadRes : Except String (List DownloadResult)

/-- The failed summary built by the `catch` block of `download()`. -/
def mkFailedSummary (msg : String) : DownloadSummary :=
  { success := false, releaseTag := "", downloadedAssets := [],
    errors := some [msg], action := "none" }

/-- The `try` body of `download()`: resolve the tag; when the tag is cached
and no force flag is set, rebuild a skipped summary from the stored state;
otherwise validate the mappings (empty list or entries missing
`source`/`output` yield a failed summary with the error recorded), run the
asset downloads, and fold their results into a `'downloaded'` summary whose
overall success requires every asset to have succeeded. -/
def downloadBody (forceUpdate : Bool) (outputDir : String)
    (mappings : List AssetMapping) (env : OrchEnv) : Except String DownloadSummary := do
  let _formattedRepo ← env.formatRepoRes
  let releaseTag ← env.resolveRes
  let summary0 : DownloadSummary :=
    { success := false, releaseTag := releaseTag.tag, downloadedAssets := [],
      action := "none" }
  if !forceUpdate && isTagCached env.cacheState releaseTag.tag then
    match env.cacheState with
    | some state =>
        let entries := state.downloadedAssets.map (fun a =>
          let outputPath := outputDir ++ "/" ++ a
          { name := a, outputPath := outputPath, success := true,
            hash := ((state.assetDetails.getD []).find? (fun p => p.1 == a)).map
              (fun p => p.2.hash),
            fileSize := env.fileSize outputPath : SummaryAsset })
        return { summary0 with downloadedAssets := entries, success := true,
                               action := "skipped" }
    | none => return summary0
  else if mappings.isEmpty then
    return { summary0 with errors := some ["No asset mappings provided"] }
  else
    let invalid := mappings.filter (fun m => m.source == "" || m.output == "")
    if invalid.length > 0 then
      let msg := "Invalid asset mappings found: " ++ toString invalid.length ++
        " mappings are missing source or output properties"
      return { summary0 with errors := some [msg] }
    else
      let results ← env.downloadRes
      let entries := (results.zip mappings).map (fun rm =>
        let outputPath := rm.1.filePath.getD (outputDir ++ "/" ++ rm.2.output)
        { name := rm.2.output, outputPath := outputPath, success := rm.1.success,
          hash := rm.1.hash,
          error := rm.1.error.map DlError.message,
          fileSize := rm.1.filePath.bind env.fileSize : SummaryAsset })
      let successCount := (results.filter (fun r => r.success)).length
      return { summary0 with downloadedAssets := entries,
                             success := decide (successCount = results.length),
                             action := "downloaded" }

/-- `download()`: the `try` body with every thrown error normalized by the
`catch` block into a returned failed summary.  The wrapper is a total
function into `DownloadSummary` — it cannot reject. -/
def download (forceUpdate : Bool) (outputDir : String)
    (mappings : List AssetMapping) (env : OrchEnv) : DownloadSummary :=
  match downloadBody forceUpdate outputDir mappings env with
  | .ok s => s
  | .error e => mkFailedSummary e

/-! ## Concrete environments used by counterexamples and witnesses -/

/-- Environment with no pre-existing lock in which every download attempt
fails with a network error. -/
def envAllFail : FsEnv :=
  { lockFile := none, now := 0, createLockOk := true, outputExists := false,
    metadata := none, attempts := fun _ => .err "Network error" }

/-- Environment holding a live lock: the lock file exists, its content parses
to timestamp `1000`, and the clock reads `2000` (well within the 1-hour
expiration threshold). -/
def envLiveLock : FsEnv :=
  { lockFile := some (some 1000), now := 2000, createLockOk := true,
    outputExists := false, metadata := none, attempts := fun _ => .err "Network error" }

/-- Environment in which the output file exists with a sidecar whose hash is
the empty string (as synthesized by the version-1-to-2 migration). -/
def envEmptyHashSidecar : FsEnv :=
  { lockFile := none, now := 0, createLockOk := true, outputExists := true,
    metadata := some ⟨"2024-01-01T00:00:00Z", ""⟩,
    attempts := fun _ => .err "Network error" }

/-- Orchestrator environment whose tag resolution fails. -/
def envResolveFails : OrchEnv :=
  { formatRepoRes := .ok "org/repo", resolveRes := .error "NetworkNotFoundError",
    cacheState := none, fileSize := fun _ => none, downloadRes := .ok [] }

/-- A version-1 state file with a flat `downloadedAssets` list and no
`assetDetails`. -/
def v1State : DownloadState :=
  { version := some 1, latestTag := "mainnet-2024-01-01",
    downloadedAssets := ["subspace-node", "subspace-farmer"],
    assetDetails := none, lastUpdated := "2024-02-02T00:00:00Z" }

/-- The default prefix table (`defaults.defaultNetworkPrefixes`, in
declaration order). -/
def defaultPrefixes : List (String × NetworkType) :=
  [("taurus-", .testnet), ("mainnet-", .mainnet), ("devnet-", .devnet)]

/-- The `ReleaseTag` discovered for the tag string `mainnet-2024-06-01`. -/
def mainnetJuneTag : ReleaseTag :=
  { tag := "mainnet-2024-06-01", network := .mainnet, date := "2024-06-01" }

/-- Constant `publishedAt`-parse oracle used by the C2 witness. -/
def constPub : String → Int := fun _ => 5

/-- Constant everywhere-valid date-parse oracle used by the C2 witness. -/
def constDate : String → Option Int := fun _ => some 0

/-- Constant locale-compare oracle used by the C2 witness. -/
def constNcmp : String → String → Int := fun _ _ => 0

/-- Two discovered mainnet tags, the June one carrying a structured publish
timestamp and the (lexically later-dated) December one without one. -/
def mixedPubTags : List ReleaseTag :=
  [ { tag := "mainnet-2024-12-01", network := .mainnet, date := "2024-12-01" },
    { tag := "mainnet-2024-06-01", network := .mainnet, date := "2024-06-01",
      publishedAt := some "2024-06-01T00:00:00Z" } ]

/-! ## Helper lemmas -/

/-- Looking up any listed key in the association list synthesized by the
migration returns the constant metadata value. -/
theorem lookupDetail_map_const (l : List String) (a : String) (v : AssetMetadata)
    (h : a ∈ l) : lookupDetail (l.map (fun x => (x, v))) a = some v := by
  induction l with
  | nil => cases h
  | cons x xs ih =>
      rcases List.mem_cons.mp h with rfl | hxs
      · simp [lookupDetail]
      · by_cases hx : x = a
        · subst hx; simp [lookupDetail]
        · simpa [lookupDetail, hx] using ih hxs

/-- On a pattern of regex-literal characters the unescape pass is the
identity. -/
theorem unescapeChars_literal (P : List Char) (h : P.all regexLiteralChar = true) :
    unescapeChars false P = some P := by
  induction P with
  | nil => rfl
  | cons c rest ih =>
      rw [List.all_cons, Bool.and_eq_true] at h
      obtain ⟨hc, hrest⟩ := h
      have hcm : isRegexMeta c = false := by
        unfold regexLiteralChar at hc; simpa using hc
      have hcb : c ≠ '\\' := by
        intro hcc; rw [hcc] at hcm; exact absurd hcm (by decide)
      unfold unescapeChars
      rw [if_neg hcb, if_neg (by simp [hcm]), ih hrest]
      rfl

/-- Escaping the first dash of a regex-literal prefix and unescaping again
recovers the prefix. -/
theorem unescapeChars_escape (P : List Char) (h : P.all regexLiteralChar = true) :
    unescapeChars false (escapeFirstDashChars P) = some P := by
  induction P with
  | nil => rfl
  | cons c rest ih =>
      rw [List.all_cons, Bool.and_eq_true] at h
      obtain ⟨hc, hrest⟩ := h
      have hcm : isRegexMeta c = false := by
        unfold regexLiteralChar at hc; simpa using hc
      have hcb : c ≠ '\\' := by
        intro hcc; rw [hcc] at hcm; exact absurd hcm (by decide)
      unfold escapeFirstDashChars
      by_cases hdash : c = '-'
      · rw [if_pos hdash]
        subst hdash
        unfold unescapeChars
        rw [if_pos rfl]
        unfold unescapeChars
        rw [if_pos rfl, unescapeChars_literal rest hrest]
        rfl
      · rw [if_neg hdash]
        unfold unescapeChars
        rw [if_neg hcb, if_neg (by simp [hcm]), ih hrest]
        rfl

/-- On a pattern of regex-literal characters (hence no `+`), the quantifier
pass emits one literal token per character, after the pending atom. -/
theorem quantifyTokens_literal (P : List Char) (h : P.all regexLiteralChar = true) :
    ∀ pending : Option Char,
      quantifyTokens pending P =
        some ((pending.map RTok.lit).toList ++ P.map RTok.lit) := by
  induction P with
  | nil => intro pending; cases pending <;> rfl
  | cons c rest ih =>
      intro pending
      rw [List.all_cons, Bool.and_eq_true] at h
      obtain ⟨hc, hrest⟩ := h
      have hplus : c ≠ '+' := by
        intro hcc
        rw [hcc] at hc
        exact absurd hc (by decide)
      cases pending with
      | none =>
          unfold quantifyTokens
          rw [if_neg hplus, ih hrest (some c)]
          rfl
      | some a =>
          unfold quantifyTokens
          rw [if_neg hplus, ih hrest (some c)]
          rfl

/-- Tokenizing the escaped form of a regex-literal prefix yields one literal
token per prefix character. -/
theorem parseRegexTokens_escape_literal (P : List Char)
    (h : P.all regexLiteralChar = true) :
    parseRegexTokens (escapeFirstDashChars P) = some (P.map RTok.lit) := by
  unfold parseRegexTokens
  rw [unescapeChars_escape P h]
  simpa using quantifyTokens_literal P h none

/-- A sequence of literal tokens matches exactly the characters it spells,
when they are an initial segment of the subject. -/
theorem matchTokens_lit_initial (P : List Char) :
    ∀ T : List Char, T.take P.length = P →
      matchTokens (P.map RTok.lit) T = some P.length := by
  induction P with
  | nil => intro T _; cases T <;> rfl
  | cons p rest ih =>
      intro T h
      cases T with
      | nil => simp at h
      | cons t T' =>
          rw [List.length_cons, List.take_succ_cons] at h
          injection h with h1 h2
          subst h1
          simp only [List.map_cons, matchTokens]
          simp [ih T' h2]

/-- For a prefix of regex-literal characters that the tag starts with, the
anchored-regex replace removes exactly the prefix. -/
theorem stripTagPrefix_literal (pre tag : String)
    (hlit : pre.data.all regexLiteralChar = true)
    (hsw : strStartsWith tag pre = true) :
    stripTagPrefix pre tag = strDrop tag pre.data.length := by
  have htake : tag.data.take pre.data.length = pre.data := by
    unfold strStartsWith at hsw
    simpa using hsw
  unfold stripTagPrefix strDrop
  rw [parseRegexTokens_escape_literal pre.data hlit]
  simp [matchTokens_lit_initial pre.data tag.data htake]

/-- The retry loop never changes the pre-loop trace flags. -/
theorem downloadLoop_preserves_flags (mapping : AssetMapping) (forceUpdate : Bool)
    (env : FsEnv) (outputPath : String) :
    ∀ (r i : Nat) (tr : Trace),
      (downloadLoop mapping forceUpdate env outputPath i r tr).2.staleLockRemoved
          = tr.staleLockRemoved ∧
      (downloadLoop mapping forceUpdate env outputPath i r tr).2.createLockCalled
          = tr.createLockCalled ∧
      (downloadLoop mapping forceUpdate env outputPath i r tr).2.lockCreated
          = tr.lockCreated := by
  intro r
  induction r with
  | zero => intro i tr; exact ⟨rfl, rfl, rfl⟩
  | succ r ih =>
      intro i tr
      unfold downloadLoop
      cases cachedHit forceUpdate env with
      | some h => exact ⟨rfl, rfl, rfl⟩
      | none =>
          cases env.attempts i with
          | ok h => exact ⟨rfl, rfl, rfl⟩
          | err m =>
              by_cases hr : r > 0
              · simpa [hr] using ih (i + 1) _
              · simp [hr]

/-- If at least one iteration runs, every exit of the retry loop releases the
lock. -/
theorem downloadLoop_releases (mapping : AssetMapping) (forceUpdate : Bool)
    (env : FsEnv) (outputPath : String) :
    ∀ (r : Nat), 1 ≤ r → ∀ (i : Nat) (tr : Trace),
      (downloadLoop mapping forceUpdate env outputPath i r tr).2.lockReleased = true := by
  intro r
  induction r with
  | zero => omega
  | succ r ih =>
      intro _ i tr
      unfold downloadLoop
      cases cachedHit forceUpdate env with
      | some h => rfl
      | none =>
          cases env.attempts i with
          | ok h => rfl
          | err m =>
              by_cases hr : r > 0
              · simpa [hr] using ih (by omega) (i + 1) _
              · simp [hr]

/-- The network-attempt counter never decreases across the retry loop. -/
theorem downloadLoop_attempts_mono (mapping : AssetMapping) (forceUpdate : Bool)
    (env : FsEnv) (outputPath : String) :
    ∀ (r i : Nat) (tr : Trace),
      tr.networkAttempts
        ≤ (downloadLoop mapping forceUpdate env outputPath i r tr).2.networkAttempts := by
  intro r
  induction r with
  | zero => intro i tr; exact Nat.le_refl _
  | succ r ih =>
      intro i tr
      unfold downloadLoop
      cases cachedHit forceUpdate env with
      | some h => exact Nat.le_refl _
      | none =>
          cases env.attempts i with
          | ok h => exact Nat.le_succ _
          | err m =>
              by_cases hr : r > 0
              · simp only [hr, if_true]
                have h2 := ih (i + 1) { tr with networkAttempts := tr.networkAttempts + 1 }
                exact Nat.le_trans (Nat.le_succ tr.networkAttempts) h2
              · simp [hr]

/-- When the cached-file short-circuit does not apply and at least one
iteration runs, the loop performs at least one network attempt. -/
theorem downloadLoop_attempts_ge_one (mapping : AssetMapping) (forceUpdate : Bool)
    (env : FsEnv) (outputPath : String) (hmiss : cachedHit forceUpdate env = none) :
    ∀ (r : Nat), 1 ≤ r → ∀ (i : Nat) (tr : Trace),
      tr.networkAttempts + 1
        ≤ (downloadLoop mapping forceUpdate env outputPath i r tr).2.networkAttempts := by
  intro r
  induction r with
  | zero => omega
  | succ r _ =>
      intro _ i tr
      unfold downloadLoop
      cases hch : cachedHit forceUpdate env with
      | some h => rw [hmiss] at hch; cases hch
      | none =>
          cases env.attempts i with
          | ok h => exact Nat.le_refl _
          | err m =>
              by_cases hr : r > 0
              · simp only [hr, if_true]
                have h2 := downloadLoop_attempts_mono mapping forceUpdate env outputPath r
                  (i + 1) { tr with networkAttempts := tr.networkAttempts + 1 }
                exact h2
              · simp [hr]

/-- Corollary of `downloadLoop_attempts_mono`: starting from a zeroed attempt
counter, a loop that misses the cache performs at least one attempt. -/
theorem downloadLoop_first_attempt (mapping : AssetMapping) (forceUpdate : Bool)
    (env : FsEnv) (outputPath : String) (hmiss : cachedHit forceUpdate env = none)
    (r : Nat) (hr : 1 ≤ r) (i : Nat) (tr : Trace) (htr : tr.networkAttempts = 0) :
    1 ≤ (downloadLoop mapping forceUpdate env outputPath i r tr).2.networkAttempts := by
  have h := downloadLoop_attempts_ge_one mapping forceUpdate env outputPath hmiss r hr i tr
  omega

/-- A successful loop exit that performed no network attempt must have come
from the cached-file short-circuit. -/
theorem downloadLoop_skip_needs_hit (mapping : AssetMapping) (forceUpdate : Bool)
    (env : FsEnv) (outputPath : String) :
    ∀ (r i : Nat) (tr : Trace),
      (downloadLoop mapping forceUpdate env outputPath i r tr).1.success = true →
      (downloadLoop mapping forceUpdate env outputPath i r tr).2.networkAttempts
          = tr.networkAttempts →
      ∃ h, cachedHit forceUpdate env = some h := by
  intro r
  induction r with
  | zero => intro i tr hsucc _; simp [downloadLoop] at hsucc
  | succ r _ =>
      intro i tr
      unfold downloadLoop
      cases hch : cachedHit forceUpdate env with
      | some h => intro _ _; exact ⟨h, rfl⟩
      | none =>
          cases hatt : env.attempts i with
          | ok h =>
              intro _ hnet
              simp at hnet
          | err m =>
              intro hsucc hnet
              by_cases hr : r > 0
              · simp only [hr, if_true] at hsucc hnet
                have h2 := downloadLoop_attempts_mono mapping forceUpdate env outputPath r
                  (i + 1) { tr with networkAttempts := tr.networkAttempts + 1 }
                have hge : tr.networkAttempts + 1
                    ≤ (downloadLoop mapping forceUpdate env outputPath (i + 1) r
                        { tr with networkAttempts := tr.networkAttempts + 1
                          }).2.networkAttempts := h2
                exact absurd hnet (by omega)
              · simp only [hr, if_false] at hsucc
                simp at hsucc

/-- Unfolding of a successful cached-file short-circuit check. -/
theorem cachedHit_eq_some (forceUpdate : Bool) (env : FsEnv) (h : String)
    (hh : cachedHit forceUpdate env = some h) :
    forceUpdate = false ∧ env.outputExists = true ∧
      ∃ m, env.metadata = some m ∧ m.hash ≠ "" := by
  unfold cachedHit at hh
  by_cases hc : (!forceUpdate && env.outputExists) = true
  · rw [if_pos hc] at hh
    obtain ⟨hf, he⟩ := Bool.and_eq_true_iff.mp hc
    refine ⟨by simpa using hf, he, ?_⟩
    cases hm : env.metadata with
    | none => rw [hm] at hh; simp at hh
    | some m =>
        rw [hm] at hh
        by_cases hz : m.hash = ""
        · simp [hz] at hh
        · exact ⟨m, rfl, hz⟩
  · rw [if_neg hc] at hh; simp at hh

/-- The head of a stable sort of a non-empty list is a member and is related
to every element of the list. -/
theorem insertionSort_head_max {α : Type} (r : α → α → Prop) [DecidableRel r]
    [IsTotal α r] [IsTrans α r] (hrefl : ∀ a, r a a) (l : List α) (hne : l ≠ []) :
    ∃ t rest, List.insertionSort r l = t :: rest ∧ t ∈ l ∧ ∀ u ∈ l, r t u := by
  have hperm := List.perm_insertionSort r l
  have hsorted := List.sorted_insertionSort r l
  cases hs : List.insertionSort r l with
  | nil =>
      rw [hs] at hperm
      exact absurd hperm.symm.eq_nil hne
  | cons t rest =>
      rw [hs] at hperm hsorted
      obtain ⟨hhead, _⟩ := List.sorted_cons.mp hsorted
      refine ⟨t, rest, rfl, hperm.mem_iff.mp (List.mem_cons_self t rest), ?_⟩
      intro u hu
      rcases List.mem_cons.mp (hperm.mem_iff.mpr hu) with rfl | hu'
      · exact hrefl u
      · exact hhead u hu'

/-- `downloadAssetLocked` preserves the stale-removal flag and always records
the `createLock` call. -/
theorem downloadAssetLocked_flags (maxRetries : Int) (forceUpdate : Bool)
    (mapping : AssetMapping) (outputPath : String) (env : FsEnv) (tr : Trace) :
    (downloadAssetLocked maxRetries forceUpdate mapping outputPath env tr).2.staleLockRemoved
        = tr.staleLockRemoved ∧
    (downloadAssetLocked maxRetries forceUpdate mapping outputPath env tr).2.createLockCalled
        = true := by
  unfold downloadAssetLocked
  cases hc : env.createLockOk with
  | false => simp [hc]
  | true =>
      simp only [hc, if_true]
      have h := downloadLoop_preserves_flags mapping forceUpdate env outputPath
        (loopIterations maxRetries) 0
        { tr with createLockCalled := true, lockCreated := true }
      exact ⟨h.1, h.2.1⟩

/-- When at least one loop iteration is allowed (`maxRetries ≥ 0`), every exit
of `downloadAssetLocked` that created the lock also releases it. -/
theorem downloadAssetLocked_releases (maxRetries : Int) (hmr : 0 ≤ maxRetries)
    (forceUpdate : Bool) (mapping : AssetMapping) (outputPath : String)
    (env : FsEnv) (tr : Trace) (htr : tr.lockCreated = false) :
    (downloadAssetLocked maxRetries forceUpdate mapping outputPath env tr).2.lockCreated = true →
    (downloadAssetLocked maxRetries forceUpdate mapping outputPath env tr).2.lockReleased
        = true := by
  unfold downloadAssetLocked
  cases hc : env.createLockOk with
  | false =>
      simp only [hc, Bool.false_eq_true, if_false]
      intro hcr
      exact absurd hcr (by simp [htr])
  | true =>
      simp only [hc, if_true]
      intro _
      have hiter : 1 ≤ loopIterations maxRetries := by
        unfold loopIterations
        rw [if_neg (by omega)]
        omega
      exact downloadLoop_releases mapping forceUpdate env outputPath
        (loopIterations maxRetries) hiter 0 _

/-- A successful `downloadAssetLocked` return that performed no network
attempt (starting from a trace with a zero attempt counter) went through the
cached-file short-circuit, which requires an existing output file with
non-empty sidecar hash and `forceUpdate` off. -/
theorem downloadAssetLocked_skip_needs_hash (maxRetries : Int) (forceUpdate : Bool)
    (mapping : AssetMapping) (outputPath : String) (env : FsEnv) (tr : Trace)
    (htr : tr.networkAttempts = 0) :
    (downloadAssetLocked maxRetries forceUpdate mapping outputPath env tr).1.success = true →
    (downloadAssetLocked maxRetries forceUpdate mapping outputPath env tr).2.networkAttempts
        = 0 →
    ∃ m, env.metadata = some m ∧ m.hash ≠ "" ∧ forceUpdate = false ∧
      env.outputExists = true := by
  unfold downloadAssetLocked
  cases hc : env.createLockOk with
  | false =>
      simp only [hc, Bool.false_eq_true, if_false]
      intro hsucc _
      exact absurd hsucc (by simp)
  | true =>
      simp only [hc, if_true]
      intro hsucc hnet
      obtain ⟨h, hch⟩ := downloadLoop_skip_needs_hit mapping forceUpdate env outputPath
        (loopIterations maxRetries) 0
        { tr with createLockCalled := true, lockCreated := true } hsucc
        (by rw [hnet]; exact (show (0 : Nat) = tr.networkAttempts from htr.symm))
      obtain ⟨hfu, hex, m, hmd, hmh⟩ := cachedHit_eq_some forceUpdate env h hch
      exact ⟨m, hmd, hmh, hfu, hex⟩

/-! ## Claim theorems -/

/-- C5: immediately after `addDownloadedAsset(tag, asset, hash)` completes,
`isTagCached(t')` is true exactly when `t'` is the tag just recorded — true
for `tag` itself and false for every other tag string — because `isTagCached`
is an equality check of its argument against the stored `latestTag`, which
`addDownloadedAsset` has just set to `tag`. -/
theorem isTagCached_after_addDownloadedAsset
    (current : Option DownloadState) (now tag asset : String) (hash : Option String)
    (t' : String) :
    isTagCached (some (addDownloadedAsset current now tag asset hash)) t' = (tag == t') := by
  have h : (addDownloadedAsset current now tag asset hash).latestTag = tag := by
    cases current <;> simp [addDownloadedAsset, saveStateStamp] <;> split_ifs <;> rfl
  simp [isTagCached, h]

/-- C9: `getState()` never returns null after construction: `loadState`
produces a state whether or not the primary and backup files are readable
(initializing a fresh empty one if both are unusable), `addDownloadedAsset`
always leaves a state in memory, and `saveState` leaves a state in memory
whenever the write succeeded or one was already there — in particular it
never discards an existing state. -/
theorem getState_never_null (primary : Option DownloadState) (backupExists : Bool)
    (backup : Option DownloadState) (now now2 now3 : String) (writeOk : Bool)
    (cur cur2 : Option DownloadState) (s : DownloadState) (tag asset : String)
    (hash : Option String) :
    (loadState primary backupExists backup now).isSome = true ∧
    (some (addDownloadedAsset cur now2 tag asset hash)).isSome = true ∧
    (saveStatePublic now3 writeOk cur2 s).isSome = (writeOk || cur2.isSome) := by
  refine ⟨?_, rfl, ?_⟩
  · unfold loadState
    cases primary <;> cases backupExists <;> cases backup <;> simp <;> split <;> simp
  · unfold saveStatePublic
    cases writeOk <;> simp

/-- C8: a mapping missing its `source` or its `output` (falsy, i.e. empty,
field) makes `downloadAsset` return the invalid-mapping failure immediately,
with an empty trace: no stale-lock removal, no lock creation, no network
call, and no file write. -/
theorem downloadAsset_invalid_mapping (maxRetries : Int) (forceUpdate : Bool)
    (mapping : AssetMapping) (outputDir : String) (env : FsEnv)
    (h : mapping.source = "" ∨ mapping.output = "") :
    downloadAsset maxRetries forceUpdate mapping outputDir env =
      ({ success := false,
         error := some (.assetError "unknown" "Invalid asset mapping") }, {}) ∧
    (downloadAsset maxRetries forceUpdate mapping outputDir env).2.createLockCalled = false ∧
    (downloadAsset maxRetries forceUpdate mapping outputDir env).2.lockCreated = false ∧
    (downloadAsset maxRetries forceUpdate mapping outputDir env).2.networkAttempts = 0 ∧
    (downloadAsset maxRetries forceUpdate mapping outputDir env).2.fileWrites = 0 := by
  unfold downloadAsset
  rw [if_pos h]
  exact ⟨rfl, rfl, rfl, rfl, rfl⟩

/-- Witness for C8 at a concrete input: empty `source`, default retries. -/
theorem downloadAsset_invalid_mapping_witness :
    (("" : String) = "" ∨ ("subspace-node" : String) = "") ∧
    (downloadAsset 3 false ⟨"", "subspace-node"⟩ "downloads" envAllFail =
        ({ success := false,
           error := some (.assetError "unknown" "Invalid asset mapping") }, {}) ∧
      (downloadAsset 3 false ⟨"", "subspace-node"⟩ "downloads" envAllFail).2.createLockCalled
          = false ∧
      (downloadAsset 3 false ⟨"", "subspace-node"⟩ "downloads" envAllFail).2.lockCreated
          = false ∧
      (downloadAsset 3 false ⟨"", "subspace-node"⟩ "downloads" envAllFail).2.networkAttempts
          = 0 ∧
      (downloadAsset 3 false ⟨"", "subspace-node"⟩ "downloads" envAllFail).2.fileWrites = 0) :=
  ⟨Or.inl rfl,
   downloadAsset_invalid_mapping 3 false ⟨"", "subspace-node"⟩ "downloads" envAllFail
     (Or.inl rfl)⟩

/-- C7: with a valid mapping, an existing lock file whose content parses to a
timestamp younger than the 1-hour threshold makes `downloadAsset` return the
locked-by-another-process failure immediately — empty trace, so no retry, no
lock creation, and no download attempt.  An existing lock whose content is
unparseable or at least as old as the threshold is removed as stale, and a
fresh acquire attempt (`createLock`) is made. -/
theorem downloadAsset_lock_inspection (maxRetries : Int) (forceUpdate : Bool)
    (mapping : AssetMapping) (outputDir : String) (env : FsEnv)
    (hs : mapping.source ≠ "") (ho : mapping.output ≠ "") :
    (∀ t, env.lockFile = some (some t) → env.now - t < lockFileExpirationMs →
        downloadAsset maxRetries forceUpdate mapping outputDir env =
          ({ success := false,
             error := some (.genericError "File is locked by another process") }, {})) ∧
    (∀ p, env.lockFile = some p →
        (p = none ∨ ∃ t, p = some t ∧ lockFileExpirationMs ≤ env.now - t) →
        (downloadAsset maxRetries forceUpdate mapping outputDir env).2.staleLockRemoved
            = true ∧
        (downloadAsset maxRetries forceUpdate mapping outputDir env).2.createLockCalled
            = true) := by
  have hvm : ¬(mapping.source = "" ∨ mapping.output = "") := by
    rintro (h | h) <;> [exact hs h; exact ho h]
  constructor
  · intro t hlf hlive
    unfold downloadAsset
    rw [if_neg hvm, hlf]
    have : lockIsLive env.now (some (some t)) = true := by
      simp [lockIsLive, hlive]
    simp [this]
  · intro p hlf hstale
    have hdead : lockIsLive env.now (some p) = false := by
      rcases hstale with rfl | ⟨t, rfl, ht⟩
      · rfl
      · simp [lockIsLive]; omega
    unfold downloadAsset
    rw [if_neg hvm, hlf]
    simp only [Option.isSome_some, if_true, hdead, Bool.false_eq_true, if_false]
    have h := downloadAssetLocked_flags maxRetries forceUpdate mapping
      (outputDir ++ "/" ++ mapping.output) env { staleLockRemoved := true }
    exact ⟨h.1, h.2⟩

/-- Witness for C7 at a concrete input: a lock created at time 1000 observed
at time 2000. -/
theorem downloadAsset_lock_inspection_witness :
    (("subspace-node-ubuntu-x86_64-skylake" : String) ≠ "" ∧
      ("subspace-node" : String) ≠ "") ∧
    ((∀ t, envLiveLock.lockFile = some (some t) →
        envLiveLock.now - t < lockFileExpirationMs →
        downloadAsset 3 false ⟨"subspace-node-ubuntu-x86_64-skylake", "subspace-node"⟩
            "downloads" envLiveLock =
          ({ success := false,
             error := some (.genericError "File is locked by another process") }, {})) ∧
      (∀ p, envLiveLock.lockFile = some p →
        (p = none ∨ ∃ t, p = some t ∧ lockFileExpirationMs ≤ envLiveLock.now - t) →
        (downloadAsset 3 false ⟨"subspace-node-ubuntu-x86_64-skylake", "subspace-node"⟩
            "downloads" envLiveLock).2.staleLockRemoved = true ∧
        (downloadAsset 3 false ⟨"subspace-node-ubuntu-x86_64-skylake", "subspace-node"⟩
            "downloads" envLiveLock).2.createLockCalled = true)) :=
  ⟨⟨by decide, by decide⟩,
   downloadAsset_lock_inspection 3 false
     ⟨"subspace-node-ubuntu-x86_64-skylake", "subspace-node"⟩ "downloads" envLiveLock
     (by decide) (by decide)⟩

/-- C1 counterexample: the claim that every invocation that creates the lock
file releases it on every exit path is false as stated.  With
`maxRetries = -1` (the constructor accepts any `number`), the retry loop body
never runs: `downloadAsset` creates the lock, returns the fall-through
`'Unknown error during download'` failure, and the lock file is never
released — the guaranteed-cleanup `finally` block only cleans up stream
state, not the lock. -/
theorem downloadAsset_neg_retries_leaks_lock :
    (downloadAsset (-1) false ⟨"subspace-node-ubuntu-x86_64-skylake", "subspace-node"⟩
        "downloads" envAllFail).2.lockCreated = true ∧
    (downloadAsset (-1) false ⟨"subspace-node-ubuntu-x86_64-skylake", "subspace-node"⟩
        "downloads" envAllFail).2.lockReleased = false ∧
    (downloadAsset (-1) false ⟨"subspace-node-ubuntu-x86_64-skylake", "subspace-node"⟩
        "downloads" envAllFail).1.success = false := by
  refine ⟨rfl, rfl, rfl⟩

/-- C1 (amended): whenever at least one loop iteration is allowed
(`maxRetries ≥ 0`, true of the default 3 and every sane configuration), every
exit path of `downloadAsset` that created the lock file also releases it —
the release happens in each return path individually (cached success,
download success, exhausted retries), not in the guaranteed-cleanup block. -/
theorem downloadAsset_releases_lock (maxRetries : Int) (forceUpdate : Bool)
    (mapping : AssetMapping) (outputDir : String) (env : FsEnv)
    (hmr : 0 ≤ maxRetries) :
    (downloadAsset maxRetries forceUpdate mapping outputDir env).2.lockCreated = true →
    (downloadAsset maxRetries forceUpdate mapping outputDir env).2.lockReleased = true := by
  unfold downloadAsset
  by_cases hvm : mapping.source = "" ∨ mapping.output = ""
  · rw [if_pos hvm]
    intro hcr
    exact absurd hcr (by simp)
  · rw [if_neg hvm]
    by_cases hl : env.lockFile.isSome
    · rw [if_pos hl]
      by_cases hlive : lockIsLive env.now env.lockFile = true
      · rw [if_pos hlive]
        intro hcr
        exact absurd hcr (by simp)
      · rw [if_neg hlive]
        exact downloadAssetLocked_releases maxRetries hmr forceUpdate mapping
          (outputDir ++ "/" ++ mapping.output) env { staleLockRemoved := true } rfl
    · rw [if_neg hl]
      exact downloadAssetLocked_releases maxRetries hmr forceUpdate mapping
        (outputDir ++ "/" ++ mapping.output) env {} rfl

/-- Witness for the amended C1 at a concrete input: default retries, no
pre-existing lock, all attempts failing — the lock is created and released. -/
theorem downloadAsset_releases_lock_witness :
    (0 : Int) ≤ 3 ∧
    ((downloadAsset 3 false ⟨"subspace-node-ubuntu-x86_64-skylake", "subspace-node"⟩
        "downloads" envAllFail).2.lockCreated = true →
      (downloadAsset 3 false ⟨"subspace-node-ubuntu-x86_64-skylake", "subspace-node"⟩
        "downloads" envAllFail).2.lockReleased = true) :=
  ⟨by decide,
   downloadAsset_releases_lock 3 false
     ⟨"subspace-node-ubuntu-x86_64-skylake", "subspace-node"⟩ "downloads" envAllFail
     (by decide)⟩

/-- C10: when the output file exists but its sidecar metadata carries the
empty-string hash synthesized for legacy assets by the version-1-to-2
migration, `downloadAsset` with `forceUpdate = false` does not short-circuit
to cached success: it performs at least one download attempt.  Conversely
(second conjunct, for arbitrary calls), any successful return that performed
no network attempt went through the cached short-circuit, which requires
sidecar metadata with a non-empty hash, `forceUpdate` off, and an existing
output file. -/
theorem downloadAsset_empty_hash_not_skipped (maxRetries : Int)
    (mapping : AssetMapping) (outputDir : String) (env : FsEnv) (md : AssetMetadata)
    (hs : mapping.source ≠ "") (ho : mapping.output ≠ "")
    (hmr : 0 ≤ maxRetries) (hlf : env.lockFile = none) (hcl : env.createLockOk = true)
    (hex : env.outputExists = true) (hmd : env.metadata = some md) (hh : md.hash = "") :
    1 ≤ (downloadAsset maxRetries false mapping outputDir env).2.networkAttempts ∧
    (∀ (maxRetries' : Int) (forceUpdate' : Bool) (mapping' : AssetMapping)
        (outputDir' : String) (env' : FsEnv),
      (downloadAsset maxRetries' forceUpdate' mapping' outputDir' env').1.success = true →
      (downloadAsset maxRetries' forceUpdate' mapping' outputDir' env').2.networkAttempts
          = 0 →
      ∃ m, env'.metadata = some m ∧ m.hash ≠ "" ∧ forceUpdate' = false ∧
        env'.outputExists = true) := by
  have hvm : ¬(mapping.source = "" ∨ mapping.output = "") := by
    rintro (h | h) <;> [exact hs h; exact ho h]
  constructor
  · have hmiss : cachedHit false env = none := by
      simp [cachedHit, hex, hmd, hh]
    unfold downloadAsset
    rw [if_neg hvm, hlf]
    simp only [Option.isSome_none, Bool.false_eq_true, if_false]
    unfold downloadAssetLocked
    rw [hcl, if_pos rfl]
    have hiter : 1 ≤ loopIterations maxRetries := by
      unfold loopIterations
      rw [if_neg (by omega)]
      omega
    exact downloadLoop_first_attempt mapping false env
      (outputDir ++ "/" ++ mapping.output) hmiss (loopIterations maxRetries) hiter 0 _ rfl
  · intro mr' fu' m' od' env'
    unfold downloadAsset
    by_cases hvm' : m'.source = "" ∨ m'.output = ""
    · rw [if_pos hvm']
      intro hsucc _
      exact absurd hsucc (by simp)
    · rw [if_neg hvm']
      by_cases hl : env'.lockFile.isSome
      · rw [if_pos hl]
        by_cases hlive : lockIsLive env'.now env'.lockFile = true
        · rw [if_pos hlive]
          intro hsucc _
          exact absurd hsucc (by simp)
        · rw [if_neg hlive]
          exact downloadAssetLocked_skip_needs_hash mr' fu' m'
            (od' ++ "/" ++ m'.output) env' { staleLockRemoved := true } rfl
      · rw [if_neg hl]
        exact downloadAssetLocked_skip_needs_hash mr' fu' m'
          (od' ++ "/" ++ m'.output) env' {} rfl

/-- Witness for C10 at a concrete input: existing output file with an
empty-hash sidecar. -/
theorem downloadAsset_empty_hash_not_skipped_witness :
    (("subspace-node-ubuntu-x86_64-skylake" : String) ≠ "" ∧
      ("subspace-node" : String) ≠ "" ∧ (0 : Int) ≤ 3 ∧
      envEmptyHashSidecar.lockFile = none ∧
      envEmptyHashSidecar.createLockOk = true ∧
      envEmptyHashSidecar.outputExists = true ∧
      envEmptyHashSidecar.metadata = some ⟨"2024-01-01T00:00:00Z", ""⟩ ∧
      (AssetMetadata.mk "2024-01-01T00:00:00Z" "").hash = "") ∧
    1 ≤ (downloadAsset 3 false ⟨"subspace-node-ubuntu-x86_64-skylake", "subspace-node"⟩
        "downloads" envEmptyHashSidecar).2.networkAttempts :=
  ⟨⟨by decide, by decide, by decide, rfl, rfl, rfl, rfl, rfl⟩,
   (downloadAsset_empty_hash_not_skipped 3
     ⟨"subspace-node-ubuntu-x86_64-skylake", "subspace-node"⟩ "downloads"
     envEmptyHashSidecar ⟨"2024-01-01T00:00:00Z", ""⟩ (by decide) (by decide) (by decide)
     rfl rfl rfl rfl rfl).1⟩

/-- C6: loading a state file with version 1 and a flat `downloadedAssets`
list (no `assetDetails` field) migrates it in place: the loaded state has the
current version 2 and an `assetDetails` entry for every listed asset whose
hash is the (non-null) empty string and whose `downloadTime` equals the
prior `lastUpdated`. -/
theorem loadState_migrates_v1 (s : DownloadState) (backupExists : Bool)
    (backup : Option DownloadState) (now : String)
    (hv : s.version = some 1) (hd : s.assetDetails = none) :
    ∃ m, loadState (some s) backupExists backup now = some m ∧
      m.version = some STATE_VERSION ∧
      ∀ a ∈ s.downloadedAssets,
        lookupDetail (m.assetDetails.getD []) a = some ⟨s.lastUpdated, ""⟩ := by
  have hmig : needsMigration s = true := by simp [needsMigration, hv, STATE_VERSION]
  refine ⟨saveStateStamp now (migrateState s), ?_, rfl, ?_⟩
  · simp [loadState, hmig]
  · intro a ha
    have hdet : (saveStateStamp now (migrateState s)).assetDetails =
        some (s.downloadedAssets.map (fun x => (x, AssetMetadata.mk s.lastUpdated ""))) := by
      simp [saveStateStamp, migrateState, hv, hd]
    rw [hdet, Option.getD_some]
    exact lookupDetail_map_const s.downloadedAssets a ⟨s.lastUpdated, ""⟩ ha

/-- Witness for C6 at a concrete version-1 state with two legacy assets. -/
theorem loadState_migrates_v1_witness :
    (v1State.version = some 1 ∧ v1State.assetDetails = none) ∧
    (∃ m, loadState (some v1State) false none "2024-03-03T00:00:00Z" = some m ∧
      m.version = some STATE_VERSION ∧
      ∀ a ∈ v1State.downloadedAssets,
        lookupDetail (m.assetDetails.getD []) a = some ⟨v1State.lastUpdated, ""⟩) :=
  ⟨⟨rfl, rfl⟩, loadState_migrates_v1 v1State false none "2024-03-03T00:00:00Z" rfl rfl⟩

/-- C3 counterexample: the claim is false over the configurable prefix table
as stated.  With the configured prefix `a+-` and tag string `a+-x`,
`tag.startsWith(prefix)` holds, so discovery maps the network and extracts a
date — but `prefix.replace('-', '\\-')` escapes only the first dash, the
constructed anchored regex with source `^a+\-` does not match `a+-x` (the
`+` became a one-or-more quantifier), and `replace` leaves the date equal to
the full tag rather than the tag with the prefix removed. -/
theorem discovery_prefix_rule_counterexample :
    htmlScrapeTags [("a+-", NetworkType.mainnet)] ["a+-x"] =
      [{ tag := "a+-x", network := NetworkType.mainnet, date := "a+-x" }] ∧
    strDrop "a+-x" ("a+-" : String).data.length = "x" ∧
    ("a+-x" : String) ≠ ("x" : String) := by
  refine ⟨by decide, by decide, by decide⟩

/-- C3 (amended): for configured prefixes made of regex-literal characters —
no JS regex metacharacters, true of the default table `taurus-`, `mainnet-`,
`devnet-` and of any prefix of letters, digits and dashes — every
`ReleaseTag` produced by discovery, on the HTML-scraping path or the API
path, has its network equal to the network mapped from the first matching
configured prefix and its date equal to the tag with that prefix removed;
and conversely (second conjunct) a non-empty tag string matching a
configured prefix is discovered as exactly that `ReleaseTag`. -/
theorem discovery_prefix_rule (prefixes : List (String × NetworkType))
    (tags : List String) (releases : List ApiRelease) (rt : ReleaseTag)
    (hlit : ∀ p ∈ prefixes, p.1.data.all regexLiteralChar = true)
    (hmem : rt ∈ htmlScrapeTags prefixes tags ∨ rt ∈ apiReleaseTags prefixes releases) :
    (∃ pre network, classifyTag prefixes rt.tag = some (pre, network) ∧
      rt.network = network ∧ rt.date = strDrop rt.tag pre.data.length) ∧
    (∀ tag pre network, tag ≠ "" → classifyTag prefixes tag = some (pre, network) →
      htmlScrapeTags prefixes [tag] =
        [{ tag := tag, network := network, date := strDrop tag pre.data.length }]) := by
  constructor
  · rcases hmem with hmem | hmem
    · obtain ⟨tg, htg, hf⟩ := List.mem_filterMap.mp hmem
      by_cases hne : tg = ""
      · rw [if_pos hne] at hf; cases hf
      · rw [if_neg hne] at hf
        cases hcl : classifyTag prefixes tg with
        | none => rw [hcl] at hf; cases hf
        | some pn =>
            obtain ⟨pre, network⟩ := pn
            rw [hcl] at hf
            have hrt := Option.some.inj hf
            subst hrt
            have hcl' := hcl
            unfold classifyTag at hcl'
            have hsw : strStartsWith tg pre = true := by
              simpa using List.find?_some hcl'
            have hlitp : pre.data.all regexLiteralChar = true :=
              hlit (pre, network) (List.mem_of_find?_eq_some hcl')
            exact ⟨pre, network, hcl, rfl, stripTagPrefix_literal pre tg hlitp hsw⟩
    · obtain ⟨r, hr, hf⟩ := List.mem_filterMap.mp hmem
      cases hcl : classifyTag prefixes r.tag_name with
      | none => rw [hcl] at hf; cases hf
      | some pn =>
          obtain ⟨pre, network⟩ := pn
          rw [hcl] at hf
          have hrt := Option.some.inj hf
          subst hrt
          have hcl' := hcl
          unfold classifyTag at hcl'
          have hsw : strStartsWith r.tag_name pre = true := by
            simpa using List.find?_some hcl'
          have hlitp : pre.data.all regexLiteralChar = true :=
            hlit (pre, network) (List.mem_of_find?_eq_some hcl')
          exact ⟨pre, network, hcl, rfl,
            stripTagPrefix_literal pre r.tag_name hlitp hsw⟩
  · intro tag pre network hne hcl
    have hcl' := hcl
    unfold classifyTag at hcl'
    have hsw : strStartsWith tag pre = true := by
      simpa using List.find?_some hcl'
    have hlitp : pre.data.all regexLiteralChar = true :=
      hlit (pre, network) (List.mem_of_find?_eq_some hcl')
    simp [htmlScrapeTags, hne, hcl, stripTagPrefix_literal pre tag hlitp hsw]

/-- Witness for C3 at a concrete input: the default prefix table classifying
`mainnet-2024-06-01`. -/
theorem discovery_prefix_rule_witness :
    ((∀ p ∈ defaultPrefixes, p.1.data.all regexLiteralChar = true) ∧
      (mainnetJuneTag ∈ htmlScrapeTags defaultPrefixes ["mainnet-2024-06-01"] ∨
        mainnetJuneTag ∈ apiReleaseTags defaultPrefixes [])) ∧
    ((∃ pre network,
        classifyTag defaultPrefixes mainnetJuneTag.tag = some (pre, network) ∧
        mainnetJuneTag.network = network ∧
        mainnetJuneTag.date = strDrop mainnetJuneTag.tag pre.data.length) ∧
      (∀ tag pre network, tag ≠ "" →
        classifyTag defaultPrefixes tag = some (pre, network) →
        htmlScrapeTags defaultPrefixes [tag] =
          [{ tag := tag, network := network, date := strDrop tag pre.data.length }])) :=
  ⟨⟨by decide, Or.inl (by decide)⟩,
   discovery_prefix_rule defaultPrefixes ["mainnet-2024-06-01"] [] mainnetJuneTag
     (by decide) (Or.inl (by decide))⟩

/-- C4: `download()` is a total function into `DownloadSummary` — it cannot
reject — and operational failures are normalized into the returned summary:
a thrown repo-format or tag-resolution error, or a failure thrown while
downloading assets, yields the failed summary carrying that error message in
`errors`; a mapping-validation failure yields a returned summary with
`success = false` and the validation message in `errors`. -/
theorem download_normalizes_errors (forceUpdate : Bool) (outputDir : String)
    (mappings : List AssetMapping) (env : OrchEnv) :
    (∀ e, env.formatRepoRes = .error e →
        download forceUpdate outputDir mappings env = mkFailedSummary e) ∧
    (∀ repo e, env.formatRepoRes = .ok repo → env.resolveRes = .error e →
        download forceUpdate outputDir mappings env = mkFailedSummary e) ∧
    (∀ e, downloadBody forceUpdate outputDir mappings env = .error e →
        download forceUpdate outputDir mappings env = mkFailedSummary e ∧
        (download forceUpdate outputDir mappings env).success = false ∧
        (download forceUpdate outputDir mappings env).errors = some [e]) ∧
    (∀ repo rt, env.formatRepoRes = .ok repo → env.resolveRes = .ok rt →
        (!forceUpdate && isTagCached env.cacheState rt.tag) = false →
        mappings.isEmpty = false →
        0 < (mappings.filter (fun m => m.source == "" || m.output == "")).length →
        (download forceUpdate outputDir mappings env).success = false ∧
        (download forceUpdate outputDir mappings env).errors =
          some ["Invalid asset mappings found: " ++
            toString (mappings.filter (fun m => m.source == "" || m.output == "")).length
            ++ " mappings are missing source or output properties"]) ∧
    (∀ repo rt e, env.formatRepoRes = .ok repo → env.resolveRes = .ok rt →
        (!forceUpdate && isTagCached env.cacheState rt.tag) = false →
        mappings.isEmpty = false →
        (mappings.filter (fun m => m.source == "" || m.output == "")).length = 0 →
        env.downloadRes = .error e →
        download forceUpdate outputDir mappings env = mkFailedSummary e) := by
  refine ⟨?_, ?_, ?_, ?_, ?_⟩
  · intro e hfr
    simp [download, downloadBody, hfr, Bind.bind, Except.bind]
  · intro repo e hfr hres
    simp [download, downloadBody, hfr, hres, Bind.bind, Except.bind]
  · intro e hbody
    unfold download
    rw [hbody]
    exact ⟨rfl, rfl, rfl⟩
  · intro repo rt hfr hres hcache hempty hinv
    have hne : mappings ≠ [] := by
      cases mappings with
      | nil => simp at hempty
      | cons a l => simp
    have hbody : downloadBody forceUpdate outputDir mappings env =
        .ok { success := false, releaseTag := rt.tag, downloadedAssets := [],
              errors := some ["Invalid asset mappings found: " ++
                toString (mappings.filter (fun m => m.source == "" || m.output == "")).length
                ++ " mappings are missing source or output properties"],
              action := "none" } := by
      unfold downloadBody
      simp [hfr, hres, hcache, hne, hinv, Bind.bind, Except.bind]
      rfl
    unfold download
    rw [hbody]
    exact ⟨rfl, rfl⟩
  · intro repo rt e hfr hres hcache hempty hlen hdl
    have hne : mappings ≠ [] := by
      cases mappings with
      | nil => simp at hempty
      | cons a l => simp
    simp [download, downloadBody, hfr, hres, hcache, hne, hlen, hdl,
      Bind.bind, Except.bind]

/-- Witness for C4 at a concrete input: resolution fails with
`NetworkNotFoundError` and `download` returns the corresponding failed
summary instead of throwing. -/
theorem download_normalizes_errors_witness :
    (envResolveFails.formatRepoRes = .ok "org/repo" ∧
      envResolveFails.resolveRes = .error "NetworkNotFoundError") ∧
    download false "downloads"
        [⟨"subspace-node-ubuntu-x86_64-skylake", "subspace-node"⟩] envResolveFails =
      mkFailedSummary "NetworkNotFoundError" :=
  ⟨⟨rfl, rfl⟩,
   (download_normalizes_errors false "downloads"
       [⟨"subspace-node-ubuntu-x86_64-skylake", "subspace-node"⟩]
       envResolveFails).2.1 "org/repo" "NetworkNotFoundError" rfl rfl⟩

/-- C2: for a non-empty set of tags matching the requested network,
`getLatestReleaseTag` returns a matching tag `t` that is maximal for the
applicable recency order: whenever any candidate carries a structured
`publishedAt` timestamp, `t` maximizes the parsed `publishedAt` key
(candidates without one count as 0, so structured-timestamp sorting takes
precedence even when a later-dated tag lacks a timestamp); otherwise, when
the extracted date substrings all parse as dates, `t` maximizes the parsed
date (the locale-aware numeric string comparison being the fallback for
invalid parses). -/
theorem getLatestReleaseTag_sorting (parsePub : String → Int)
    (parseDate : String → Option Int) (ncmp : String → String → Int)
    (releaseTags : List ReleaseTag) (networkType : NetworkType)
    (hne : releaseTags.filter (networkMatches networkType) ≠ []) :
    ∃ t, getLatestReleaseTag parsePub parseDate ncmp releaseTags networkType = .ok t ∧
      t ∈ releaseTags.filter (networkMatches networkType) ∧
      t.network = networkType ∧
      ((releaseTags.filter (networkMatches networkType)).any
          (fun u => u.publishedAt.isSome) = true →
        ∀ u ∈ releaseTags.filter (networkMatches networkType),
          pubKey parsePub u ≤ pubKey parsePub t) ∧
      ((releaseTags.filter (networkMatches networkType)).any
          (fun u => u.publishedAt.isSome) = false →
        (∀ str, (parseDate str).isSome = true) →
        ∀ u ∈ releaseTags.filter (networkMatches networkType),
          dateVal parseDate u ≤ dateVal parseDate t) ∧
      ((releaseTags.filter (networkMatches networkType)).any
          (fun u => u.publishedAt.isSome) = false →
        (∀ str, parseDate str = none) →
        (∀ x y, ncmp x y ≤ 0 ∨ ncmp y x ≤ 0) →
        (∀ x y z, ncmp x y ≤ 0 → ncmp y z ≤ 0 → ncmp x z ≤ 0) →
        ∀ u ∈ releaseTags.filter (networkMatches networkType),
          ncmp u.date t.date ≤ 0) := by
  set filtered := releaseTags.filter (networkMatches networkType) with hfil
  have hisEmpty : filtered.isEmpty = false := by
    cases hfe : filtered with
    | nil => exact absurd hfe hne
    | cons a l => rfl
  cases hpub : filtered.any (fun u => u.publishedAt.isSome) with
  | true =>
      have hrefl : ∀ a, lePub parsePub a a := by intro a; unfold lePub; omega
      obtain ⟨t, rest, hsort, hmem, hmax⟩ :=
        insertionSort_head_max (lePub parsePub) hrefl filtered hne
      refine ⟨t, ?_, hmem, ?_, ?_, ?_, ?_⟩
      · simp only [getLatestReleaseTag]
        rw [← hfil]
        simp only [hisEmpty, Bool.false_eq_true, if_false, hpub, if_true, hsort]
      · obtain ⟨_, hp⟩ := List.mem_filter.mp hmem
        exact of_decide_eq_true hp
      · intro _ u hu
        have h := hmax u hu
        unfold lePub at h
        omega
      · intro h5
        simp [hpub] at h5
      · intro h6
        simp [hpub] at h6
  | false =>
      cases hs : List.insertionSort (leDate parseDate ncmp) filtered with
      | nil =>
          have hperm := List.perm_insertionSort (leDate parseDate ncmp) filtered
          rw [hs] at hperm
          exact absurd hperm.symm.eq_nil hne
      | cons t rest =>
          have hperm := List.perm_insertionSort (leDate parseDate ncmp) filtered
          rw [hs] at hperm
          have hmem : t ∈ filtered := hperm.mem_iff.mp (List.mem_cons_self t rest)
          refine ⟨t, ?_, hmem, ?_, ?_, ?_, ?_⟩
          · simp only [getLatestReleaseTag]
            rw [← hfil]
            simp only [hisEmpty, Bool.false_eq_true, if_false, hpub, if_false, hs]
          · obtain ⟨_, hp⟩ := List.mem_filter.mp hmem
            exact of_decide_eq_true hp
          · intro h4
            simp [hpub] at h4
          · intro _ Hall u hu
            haveI : IsTotal ReleaseTag (leDate parseDate ncmp) := by
              constructor
              intro a b
              obtain ⟨ta, hta⟩ := Option.isSome_iff_exists.mp (Hall a.date)
              obtain ⟨tb, htb⟩ := Option.isSome_iff_exists.mp (Hall b.date)
              simp only [leDate, cmpDate, hta, htb]
              omega
            haveI : IsTrans ReleaseTag (leDate parseDate ncmp) := by
              constructor
              intro a b c
              obtain ⟨ta, hta⟩ := Option.isSome_iff_exists.mp (Hall a.date)
              obtain ⟨tb, htb⟩ := Option.isSome_iff_exists.mp (Hall b.date)
              obtain ⟨tc, htc⟩ := Option.isSome_iff_exists.mp (Hall c.date)
              simp only [leDate, cmpDate, hta, htb, htc]
              omega
            have hsorted := List.sorted_insertionSort (leDate parseDate ncmp) filtered
            rw [hs] at hsorted
            obtain ⟨hhead, _⟩ := List.sorted_cons.mp hsorted
            obtain ⟨tt, htt⟩ := Option.isSome_iff_exists.mp (Hall t.date)
            obtain ⟨tu, htu⟩ := Option.isSome_iff_exists.mp (Hall u.date)
            have hle : leDate parseDate ncmp t u := by
              rcases List.mem_cons.mp (hperm.mem_iff.mpr hu) with rfl | hu'
              · simp only [leDate, cmpDate, htt]; omega
              · exact hhead u hu'
            simp only [leDate, cmpDate, htt, htu] at hle
            simp only [dateVal, htt, htu, Option.getD_some]
            omega
          · intro _ Hnone hn1 hn2 u hu
            haveI : IsTotal ReleaseTag (leDate parseDate ncmp) := by
              constructor
              intro a b
              simp only [leDate, cmpDate, Hnone]
              exact hn1 b.date a.date
            haveI : IsTrans ReleaseTag (leDate parseDate ncmp) := by
              constructor
              intro a b c hab hbc
              simp only [leDate, cmpDate, Hnone] at hab hbc ⊢
              exact hn2 c.date b.date a.date hbc hab
            have hsorted := List.sorted_insertionSort (leDate parseDate ncmp) filtered
            rw [hs] at hsorted
            obtain ⟨hhead, _⟩ := List.sorted_cons.mp hsorted
            have hle : leDate parseDate ncmp t u := by
              rcases List.mem_cons.mp (hperm.mem_iff.mpr hu) with rfl | hu'
              · simp only [leDate, cmpDate, Hnone]
                rcases hn1 u.date u.date with h | h <;> exact h
              · exact hhead u hu'
            simpa only [leDate, cmpDate, Hnone] using hle

/-- Witness for C2 at a concrete input: two mainnet tags where only the
earlier-dated one carries a `publishedAt` timestamp. -/
theorem getLatestReleaseTag_sorting_witness :
    mixedPubTags.filter (networkMatches .mainnet) ≠ [] ∧
    (∃ t, getLatestReleaseTag constPub constDate constNcmp mixedPubTags .mainnet
          = .ok t ∧
      t ∈ mixedPubTags.filter (networkMatches .mainnet) ∧
      t.network = .mainnet ∧
      ((mixedPubTags.filter (networkMatches .mainnet)).any
          (fun u => u.publishedAt.isSome) = true →
        ∀ u ∈ mixedPubTags.filter (networkMatches .mainnet),
          pubKey constPub u ≤ pubKey constPub t) ∧
      ((mixedPubTags.filter (networkMatches .mainnet)).any
          (fun u => u.publishedAt.isSome) = false →
        (∀ str, (constDate str).isSome = true) →
        ∀ u ∈ mixedPubTags.filter (networkMatches .mainnet),
          dateVal constDate u ≤ dateVal constDate t) ∧
      ((mixedPubTags.filter (networkMatches .mainnet)).any
          (fun u => u.publishedAt.isSome) = false →
        (∀ str, constDate str = none) →
        (∀ x y, constNcmp x y ≤ 0 ∨ constNcmp y x ≤ 0) →
        (∀ x y z, constNcmp x y ≤ 0 → constNcmp y z ≤ 0 → constNcmp x z ≤ 0) →
        ∀ u ∈ mixedPubTags.filter (networkMatches .mainnet),
          constNcmp u.date t.date ≤ 0)) :=
  ⟨by decide,
   getLatestReleaseTag_sorting constPub constDate constNcmp mixedPubTags .mainnet
     (by decide)⟩

end AI3
